import Mathlib

/-!
# Verification of the `openedx-certificates` eligibility and generation pipeline

Shallow embedding of the core logic of the `openedx-certificates` repository:

* `openedx_certificates/processors.py` — the weighted-grade evaluator
  (`_are_grades_passing_criteria`, `retrieve_subsection_grades`) and the
  completion evaluator (`retrieve_course_completions`);
* `openedx_certificates/models.py` — the credential ledger
  (`filter_out_user_ids_with_certificates`, `generate_certificate_for_user`);
* `openedx_certificates/api.py` — the manual generation command;
* `openedx_certificates/generators.py` — subject-name resolution, template
  selection, and `hex_to_rgb`.

Python dicts are embedded as insertion-ordered association lists with
overwrite-on-insert (`dictOf`), numeric values as `ℚ`, and Python exceptions
as `Except`.
-/

/-! ## Dictionaries: insertion-ordered association lists -/

/-- First-match lookup in an association list (Python `d.get(k)` /`k in d`
on dictionaries built by `dictOf`, whose keys are unique). -/
def dictGet {α : Type} : List (String × α) → String → Option α
  | [], _ => none
  | (k, v) :: d, key => if k = key then some v else dictGet d key

/-- Python `d.get(k, v₀)`. -/
def dictGetD {α : Type} (d : List (String × α)) (k : String) (v₀ : α) : α :=
  (dictGet d k).getD v₀

/-- Insert with overwrite, keeping the position of an existing key
(Python dict assignment semantics). -/
def dictInsert {α : Type} : List (String × α) → String → α → List (String × α)
  | [], k, v => [(k, v)]
  | (k', v') :: d, k, v => if k' = k then (k, v) :: d else (k', v') :: dictInsert d k v

/-- Build a dict from a list of key-value pairs, later pairs overwriting
earlier ones (Python dict comprehension over a sequence of pairs). -/
def dictOf {α : Type} (l : List (String × α)) : List (String × α) :=
  l.foldl (fun d kv => dictInsert d kv.1 kv.2) []

/-- Lower-casing of ASCII category names (Python `str.lower`),
done character-wise so that it evaluates in the kernel. -/
def lowerStr (s : String) : String :=
  String.mk (s.toList.map Char.toLower)

/-! ## `processors.py`: the weighted-grade evaluator

`_are_grades_passing_criteria(user_grades, required_grades, category_weights)`
(processors.py:88-117) checks the attempt condition, then loops over the
user's grades accumulating the weighted total; `retrieve_subsection_grades`
(processors.py:120-162) normalises the options and maps the check over all
enrolled users' grades. -/

/-- The `for category, score in user_grades.items()` loop of
`_are_grades_passing_criteria`, with accumulator `total`:
an early `return False` when a grade is below its required minimum, a
`ValueError` when a category has no weight, and the final comparison of the
weighted total against the `"total"` requirement. -/
def checkGradesLoop (requiredGrades categoryWeights : List (String × ℚ)) :
    List (String × ℚ) → ℚ → Except String Bool
  | [], total => .ok (decide (dictGetD requiredGrades "total" 0 ≤ total))
  | (category, score) :: rest, total =>
    if score < dictGetD requiredGrades category 0 then
      .ok false
    else
      match dictGet categoryWeights category with
      | none =>
        .error ("Category weight '" ++ category ++ "' was not found in the course grading policy.")
      | some w => checkGradesLoop requiredGrades categoryWeights rest (total + score * w)

/-- `_are_grades_passing_criteria` (processors.py:88-117). -/
def areGradesPassingCriteria (userGrades requiredGrades categoryWeights : List (String × ℚ)) :
    Except String Bool :=
  if requiredGrades.all (fun kv => kv.1 == "total" || (dictGet userGrades kv.1).isSome) then
    checkGradesLoop requiredGrades categoryWeights userGrades 0
  else
    .ok false

/-- The `for user_id, user_grades in grades.items()` loop of
`retrieve_subsection_grades` (processors.py:157-160): collect the IDs of the
users whose grades pass the criteria, in iteration order. -/
def collectEligible (requiredGrades categoryWeights : List (String × ℚ)) :
    List (Nat × List (String × ℚ)) → Except String (List Nat)
  | [] => .ok []
  | (userId, userGrades) :: rest =>
    match areGradesPassingCriteria userGrades requiredGrades categoryWeights with
    | .error e => .error e
    | .ok passing =>
      match collectEligible requiredGrades categoryWeights rest with
      | .error e => .error e
      | .ok eligible => .ok (if passing then userId :: eligible else eligible)

/-- The external data consumed by `retrieve_subsection_grades`:
the `required_grades` option (fractions in [0,1], as written in the
configuration), the course grading policy (category name, weight) as returned
by `get_course_grading_policy`, and the per-user percentage grades by
category as computed by `_get_grades_by_format` (one entry per enrolled
user, keys already lower-cased). -/
structure SubsectionGradesInput where
  requiredGrades : List (String × ℚ)
  gradingPolicy : List (String × ℚ)
  userGrades : List (Nat × List (String × ℚ))

/-- `retrieve_subsection_grades` (processors.py:120-162): lower-case and
scale the required grades by 100, build the category-weight dict from the
grading policy (`_get_category_weights`, processors.py:36-53), and collect
the eligible users. -/
def retrieveSubsectionGrades (inp : SubsectionGradesInput) : Except String (List Nat) :=
  let required := dictOf (inp.requiredGrades.map (fun kv => (lowerStr kv.1, kv.2 * 100)))
  let weights := dictOf (inp.gradingPolicy.map (fun kv => (lowerStr kv.1, kv.2)))
  collectEligible required weights inp.userGrades

/-- Refinement target for the weighted-grade evaluator, following the spec's
words: (a) every required category other than `"total"` has a grade entry;
(b) every per-category grade meets its required minimum (0 when the category
has no requirement); (c) the weighted sum of the user's grades is at least
the `"total"` requirement (0 when unspecified). -/
def passesCriteriaSpec (userGrades requiredGrades categoryWeights : List (String × ℚ)) : Prop :=
  (∀ kv ∈ requiredGrades, kv.1 ≠ "total" → (dictGet userGrades kv.1).isSome) ∧
  (∀ kv ∈ userGrades, dictGetD requiredGrades kv.1 0 ≤ kv.2) ∧
  dictGetD requiredGrades "total" 0 ≤
    (userGrades.map (fun kv => kv.2 * dictGetD categoryWeights kv.1 0)).sum

/-! ## `processors.py`: the completion evaluator

`retrieve_course_completions` (processors.py:192-224) pages through the
Completion Aggregator with query parameters `{page_size: 1000, page: n}`
starting at `page = 1`, accumulates the usernames whose completion percent
meets the threshold, requests the next page only while the current response
reports one, and finally resolves the accumulated usernames to user IDs. -/

/-- One response of the completion-aggregation source: the page's results
(username, completion percent) and whether `pagination.next` is truthy. -/
structure CompletionPage where
  results : List (String × ℚ)
  hasNext : Bool

/-- The usernames accepted from one page:
`res['username'] for res in results if res['completion']['percent'] >= required_completion`. -/
def pageEligible (requiredCompletion : ℚ) (page : CompletionPage) : List String :=
  (page.results.filter (fun r => decide (requiredCompletion ≤ r.2))).map Prod.fst

/-- The `while True` pagination loop of `retrieve_course_completions`.
`fetch p` is the source's response to the request with query parameters
`{page_size: 1000, page: p}`; the second component of the result is the
trace of `(page_size, page)` requests issued, in order. The loop in the
source terminates only when a page reports no `next`; `fuel` bounds the
recursion and is irrelevant whenever a no-`next` page is reached in time. -/
def completionPagesLoop (requiredCompletion : ℚ) (fetch : Nat → CompletionPage) :
    Nat → Nat → List String × List (Nat × Nat)
  | 0, _ => ([], [])
  | fuel + 1, page =>
    let response := fetch page
    let accepted := pageEligible requiredCompletion response
    if response.hasNext then
      let rest := completionPagesLoop requiredCompletion fetch fuel (page + 1)
      (accepted ++ rest.1, (1000, page) :: rest.2)
    else
      (accepted, [(1000, page)])

/-- `retrieve_course_completions` (processors.py:192-224).
`requiredCompletionOpt` is `options.get('required_completion', 0.9)`;
`userTable` is the user model's (id, username) table, and the final line
`User.objects.filter(username__in=completions)` keeps the IDs of the users
whose username was accumulated. -/
def retrieveCourseCompletions (requiredCompletionOpt : Option ℚ) (fetch : Nat → CompletionPage)
    (userTable : List (Nat × String)) (fuel : Nat) : List Nat :=
  let requiredCompletion := requiredCompletionOpt.getD (9 / 10)
  let completions := (completionPagesLoop requiredCompletion fetch fuel 1).1
  (userTable.filter (fun u => completions.contains u.2)).map Prod.fst

/-! ## `models.py`: the credential ledger

`ExternalCertificate` (models.py:234-298) keyed by
(user_id, course_id, certificate_type);
`ExternalCertificateCourseConfiguration.filter_out_user_ids_with_certificates`
(models.py:143-159) and `generate_certificate_for_user` (models.py:175-231). -/

/-- `ExternalCertificate.Status` (models.py:249-255). -/
inductive CertStatus
  | generating
  | available
  | error
  | invalidated
deriving DecidableEq

/-- One `ExternalCertificate` row (models.py:234-278). UUIDs are embedded
as naturals drawn from a fresh-ID counter. -/
structure ExternalCertificate where
  uuid : Nat
  userId : Nat
  userFullName : String
  courseId : String
  certificateType : String
  status : CertStatus
  downloadUrl : String
  generationTaskId : Nat
deriving DecidableEq

/-- The fields of an `ExternalCertificateCourseConfiguration` relevant here:
its primary key, its course, and the name of its certificate type. -/
structure CertConfig where
  id : Nat
  courseId : String
  certificateTypeName : String

/-- The certificate table, with a counter supplying fresh UUIDs. -/
structure CertStore where
  certs : List ExternalCertificate
  nextUuid : Nat

/-- Whether a row matches the natural key
(user_id, course_id, certificate_type) used by the configuration's queries. -/
def matchesKey (cfg : CertConfig) (userId : Nat) (c : ExternalCertificate) : Bool :=
  c.userId == userId && c.courseId == cfg.courseId && c.certificateType == cfg.certificateTypeName

/-- `ExternalCertificate.objects.get(user_id=..., course_id=..., certificate_type=...)`
(unique per natural key, so the first match). -/
def findCert (store : CertStore) (cfg : CertConfig) (userId : Nat) : Option ExternalCertificate :=
  store.certs.find? (matchesKey cfg userId)

/-- `certificate.save()`: write back the row holding this natural key. -/
def saveCert (store : CertStore) (cfg : CertConfig) (userId : Nat)
    (c : ExternalCertificate) : CertStore :=
  { store with certs := store.certs.map (fun x => if matchesKey cfg userId x then c else x) }

/-- The upsert at the start of `generate_certificate_for_user`
(models.py:193-211): update the existing row's name/status/task in place, or
create a fresh row (fresh UUID, empty `download_url`) in GENERATING status.
Returns the updated store and the credential the attempt operates on. -/
def upsertGenerating (cfg : CertConfig) (store : CertStore) (userId : Nat)
    (userFullName : String) (celeryTaskId : Nat) : CertStore × ExternalCertificate :=
  match findCert store cfg userId with
  | some c =>
    let c' := { c with
      userFullName := userFullName
      status := CertStatus.generating
      generationTaskId := celeryTaskId }
    (saveCert store cfg userId c', c')
  | none =>
    let c' : ExternalCertificate := {
      uuid := store.nextUuid
      userId := userId
      userFullName := userFullName
      courseId := cfg.courseId
      certificateType := cfg.certificateTypeName
      status := CertStatus.generating
      downloadUrl := ""
      generationTaskId := celeryTaskId }
    ({ certs := store.certs ++ [c'], nextUuid := store.nextUuid + 1 }, c')

/-- The data carried by the `CertificateGenerationError` raised on a failed
attempt (models.py:225-226): the message interpolates `certificate.uuid`,
`user_id` and the configuration's `self.id`. -/
structure CertificateGenerationError where
  certificateUuid : Nat
  userId : Nat
  configId : Nat
deriving DecidableEq

/-- `ExternalCertificateCourseConfiguration.generate_certificate_for_user`
(models.py:175-231). `genResult` stands for the outcome of calling the
configured generation function: `some url` when it returns a URL, `none`
when it raises any exception. On success the row gets the URL and
AVAILABLE status; on failure the handler sets ERROR, saves, and raises
`CertificateGenerationError`. -/
def generateCertificateForUser (cfg : CertConfig) (store : CertStore) (userId : Nat)
    (userFullName : String) (genResult : Option String) (celeryTaskId : Nat) :
    CertStore × Except CertificateGenerationError Unit :=
  let (store1, certificate) := upsertGenerating cfg store userId userFullName celeryTaskId
  match genResult with
  | some url =>
    let c' := { certificate with downloadUrl := url, status := CertStatus.available }
    (saveCert store1 cfg userId c', .ok ())
  | none =>
    let c' := { certificate with status := CertStatus.error }
    (saveCert store1 cfg userId c',
     .error ⟨certificate.uuid, userId, cfg.id⟩)

/-- Keep-first deduplication. Python's `list(set(user_ids) - ...)` iterates
the set in an unspecified order; the embedding fixes first-occurrence order,
and the claims about this function only concern membership. -/
def dedupList : List Nat → List Nat
  | [] => []
  | x :: xs => x :: (dedupList xs).filter (fun y => y ≠ x)

/-- `filter_out_user_ids_with_certificates` (models.py:143-159): remove the
IDs holding a certificate for this (course, type) in any status other than
ERROR. -/
def filterOutUserIdsWithCertificates (cfg : CertConfig) (store : CertStore)
    (userIds : List Nat) : List Nat :=
  let idsWithCertificates :=
    (store.certs.filter (fun c =>
      c.courseId == cfg.courseId && c.certificateType == cfg.certificateTypeName &&
        !(c.status == CertStatus.error))).map (fun c => c.userId)
  (dedupList userIds).filter (fun uid => !(idsWithCertificates.contains uid))

/-! ## `api.py`: the manual generation command

`generate_certificate_for_user(course_id, certificate_type, user_id, force)`
(api.py:55-77): look up the configuration, raise
`ValueError('User is not eligible for the certificate.')` when `force` is
false and the per-user eligibility check comes back empty, and otherwise
dispatch `generate_certificate_for_user_task.delay(config.id, user_id)`. -/

/-- Modelled from the spec: `get_eligible_user_ids(user_id)` as called from
`api.py` — the version of `ExternalCertificateCourseConfiguration.get_eligible_user_ids`
accepting an optional user ID is not in the sources (models.py:161-173 has
the no-argument variant only, while api.py:72 passes `user_id`). Per the
spec, the query "getEligibleLearnersByCredentialType(resourceId, learnerId?)"
restricts the eligible set to the given learner when one is supplied, and
manual generation "fails with NotEligible unless force=true or learner is in
the eligible set". -/
def getEligibleUserIds (eligible : List Nat) : Option Nat → List Nat
  | none => eligible
  | some userId => eligible.filter (fun uid => uid == userId)

/-- The task dispatched by `generate_certificate_for_user_task.delay(...)`. -/
structure DispatchedTask where
  configId : Nat
  userId : Nat
deriving DecidableEq

/-- `api.generate_certificate_for_user` (api.py:55-77). `eligible` is the
eligible set computed by the configuration's retrieval function. The store
is passed through untouched: dispatching only enqueues the asynchronous
task, and the eligibility failure is raised before anything is enqueued. -/
def apiGenerateCertificateForUser (cfg : CertConfig) (eligible : List Nat) (store : CertStore)
    (userId : Nat) (force : Bool) : CertStore × Except String DispatchedTask :=
  if !force && (getEligibleUserIds eligible (some userId)).isEmpty then
    (store, .error "User is not eligible for the certificate.")
  else
    (store, .ok ⟨cfg.id, userId⟩)

/-! ## `generators.py`: the PDF renderer's pure logic

`generate_pdf_certificate` (generators.py:171-245): subject-name resolution
(lines 203-217), template selection (lines 219-225); the text overlay
`_write_text_on_template` (generators.py:61-130) splits the subject name on
newlines; `hex_to_rgb` (generators.py:79-92) parses the color options. -/

/-- The collaborators consulted when resolving the subject name:
`get_course_name(resource_id)`, whether the `learning_paths` app is
installed, and the outcome of `LearningPath.objects.get(uuid=resource_id)`
(`none` when the lookup raises). -/
structure RenderEnv where
  courseName : String
  learningPathsInstalled : Bool
  learningPathLookup : Option String

/-- Subject-name resolution in `generate_pdf_certificate`
(generators.py:203-217). `resourceNameOpt` is `options.get('resource_name')`
(`none` when absent). For `'course'`, `resource_name or get_course_name(...)`
keeps a non-empty override. For `'learning_path'`, `resource_name` is
unconditionally reassigned: the `LearningPath` lookup result when it
succeeds, `""` when the app is missing or the lookup raises (the override
and the attempt check are dead at that point, and nothing is raised). Any
other resource type raises `ValueError`. -/
def resolveResourceName (resourceType : String) (resourceNameOpt : Option String)
    (env : RenderEnv) : Except String String :=
  if resourceType = "course" then
    .ok (match resourceNameOpt with
      | some n => if n = "" then env.courseName else n
      | none => env.courseName)
  else if resourceType = "learning_path" then
    .ok (match (if env.learningPathsInstalled then env.learningPathLookup else none) with
      | some n => n
      | none => "")
  else
    .error ("Unsupported resource type: " ++ resourceType)

/-- Python truthiness of `options.get('template_two_lines')`:
falsy when the key is absent or maps to the empty string. -/
def truthyOpt : Option String → Bool
  | none => false
  | some s => !(s == "")

/-- `';' in resource_name`, evaluated on the character list. -/
def containsSemicolon (s : String) : Bool :=
  s.toList.contains ';'

/-- `resource_name.replace(';', '\n')`, character-wise. -/
def replaceSemicolons (s : String) : String :=
  String.mk (s.toList.map (fun c => if c == ';' then '\n' else c))

/-- Template selection in `generate_pdf_certificate` (generators.py:219-225):
when the subject name contains a semicolon and `template_two_lines` is
truthy, use that template and replace semicolons with newlines; otherwise
use `options['template']` (a missing key is a `KeyError`). Returns the
selected template slug and the (possibly rewritten) subject name. -/
def selectTemplate (resourceName : String) (template templateTwoLines : Option String) :
    Except String (String × String) :=
  if containsSemicolon resourceName && truthyOpt templateTwoLines then
    .ok ((templateTwoLines.getD ""), replaceSemicolons resourceName)
  else
    match template with
    | some t => .ok (t, resourceName)
    | none => .error "KeyError: 'template'"

/-- Splitting a list of characters on a separator (Python `str.split(sep)`
for a one-character separator: adjacent separators and ends yield empty
pieces). -/
def splitOnChar (sep : Char) : List Char → List (List Char)
  | [] => [[]]
  | c :: rest =>
    match splitOnChar sep rest with
    | [] => [[c]]
    | piece :: pieces =>
      if c == sep then [] :: piece :: pieces else (c :: piece) :: pieces

/-- The lines drawn by `_write_text_on_template` (generators.py:114-118):
`resource_name.split('\n')`, one `drawString` per line. -/
def renderedLines (resourceName : String) : List String :=
  (splitOnChar '\n' resourceName.toList).map String.mk

/-- `int(c, 16)` for a single character: its hexadecimal digit value. -/
def hexDigitValue : Char → Option Nat
  | c =>
    if '0' ≤ c ∧ c ≤ '9' then some (c.toNat - '0'.toNat)
    else if 'a' ≤ c ∧ c ≤ 'f' then some (c.toNat - 'a'.toNat + 10)
    else if 'A' ≤ c ∧ c ≤ 'F' then some (c.toNat - 'A'.toNat + 10)
    else none

/-- Accumulating parse of a hexadecimal digit string. -/
def parseHexDigits : List Char → Nat → Option Nat
  | [], acc => some acc
  | c :: cs, acc =>
    match hexDigitValue c with
    | some v => parseHexDigits cs (16 * acc + v)
    | none => none

/-- Python `int(s, 16)` on a slice: `none` (a `ValueError`) when the slice
is empty or holds a non-hexadecimal character. -/
def parseHexNat (l : List Char) : Option Nat :=
  match l with
  | [] => none
  | _ => parseHexDigits l 0

/-- `hex_to_rgb` (generators.py:79-92): strip leading `'#'`s, double each
digit of a 3-character form, then parse the three byte slices and divide by
255. `none` models the `ValueError` that `int(_, 16)` raises on malformed
input. -/
def hexToRgb (hexColor : String) : Option (ℚ × ℚ × ℚ) :=
  let stripped := hexColor.toList.dropWhile (fun c => c == '#')
  let expanded :=
    if stripped.length = 3 then (stripped.map (fun c => [c, c])).flatten else stripped
  match parseHexNat ((expanded.drop 0).take 2), parseHexNat ((expanded.drop 2).take 2),
      parseHexNat ((expanded.drop 4).take 2) with
  | some r, some g, some b => some ((r : ℚ) / 255, (g : ℚ) / 255, (b : ℚ) / 255)
  | _, _, _ => none

/-! ## Lemmas about the weighted-grade evaluator -/

theorem dictGetD_of_get_some {α : Type} {d : List (String × α)} {k : String} {v : α} {v₀ : α}
    (h : dictGet d k = some v) : dictGetD d k v₀ = v := by
  simp [dictGetD, h]

/-- The grade loop, when it returns a verdict, returns `true` exactly when
every grade meets its minimum and the accumulated weighted total reaches the
`"total"` requirement. -/
theorem checkGradesLoop_ok_iff {req w : List (String × ℚ)} :
    ∀ {g : List (String × ℚ)} {t : ℚ} {b : Bool},
      checkGradesLoop req w g t = .ok b →
      (b = true ↔
        (∀ kv ∈ g, dictGetD req kv.1 0 ≤ kv.2) ∧
        dictGetD req "total" 0 ≤ t + (g.map (fun kv => kv.2 * dictGetD w kv.1 0)).sum) := by
  intro g
  induction g with
  | nil =>
    intro t b h
    simp [checkGradesLoop] at h
    simp [← h]
  | cons kv rest ih =>
    intro t b h
    obtain ⟨category, score⟩ := kv
    by_cases hlt : score < dictGetD req category 0
    · simp [checkGradesLoop, hlt] at h
      subst h
      simp only [Bool.false_eq_true, false_iff]
      intro ⟨hmin, _⟩
      exact absurd (hmin (category, score) (by simp)) (by simpa using hlt)
    · rcases hw : dictGet w category with _ | wt
      · simp [checkGradesLoop, hlt, hw] at h
      · rw [checkGradesLoop, if_neg hlt, hw] at h
        rw [ih h]
        have hwd : dictGetD w category 0 = wt := dictGetD_of_get_some hw
        constructor
        · rintro ⟨hmin, htot⟩
          refine ⟨?_, ?_⟩
          · intro kv' hkv'
            rcases List.mem_cons.mp hkv' with hkv' | hkv'
            · rw [hkv']
              simpa using not_lt.mp hlt
            · exact hmin kv' hkv'
          · simp only [List.map_cons, List.sum_cons, hwd]
            linarith
        · rintro ⟨hmin, htot⟩
          refine ⟨fun kv' hkv' => hmin kv' (by simp [hkv']), ?_⟩
          simp only [List.map_cons, List.sum_cons, hwd] at htot
          linarith

/-- If every grade meets its minimum but some category has no weight, the
grade loop raises the `ValueError`. -/
theorem checkGradesLoop_error {req w : List (String × ℚ)} :
    ∀ {g : List (String × ℚ)} {t : ℚ},
      (∀ kv ∈ g, dictGetD req kv.1 0 ≤ kv.2) →
      (∃ kv ∈ g, dictGet w kv.1 = none) →
      ∃ e, checkGradesLoop req w g t = .error e := by
  intro g
  induction g with
  | nil =>
    intro t _ hmiss
    simp at hmiss
  | cons kv rest ih =>
    intro t hmin hmiss
    obtain ⟨category, score⟩ := kv
    have hlt : ¬score < dictGetD req category 0 := by
      simpa using hmin (category, score) (by simp)
    rcases hw : dictGet w category with _ | wt
    · exact ⟨_, by rw [checkGradesLoop, if_neg hlt, hw]⟩
    · rw [checkGradesLoop, if_neg hlt, hw]
      refine ih (fun kv' hkv' => hmin kv' (by simp [hkv'])) ?_
      rcases hmiss with ⟨kv', hkv', hnone⟩
      rcases List.mem_cons.mp hkv' with hkv'' | hkv''
      · rw [hkv''] at hnone
        simp [hw] at hnone
      · exact ⟨kv', hkv'', hnone⟩

/-- When `_are_grades_passing_criteria` returns a verdict, the verdict is
`true` exactly when the spec's conditions (a), (b), (c) hold. -/
theorem areGradesPassingCriteria_ok_iff {g req w : List (String × ℚ)} {b : Bool}
    (h : areGradesPassingCriteria g req w = .ok b) :
    b = true ↔ passesCriteriaSpec g req w := by
  by_cases hall : req.all (fun kv => kv.1 == "total" || (dictGet g kv.1).isSome) = true
  · rw [areGradesPassingCriteria, if_pos hall] at h
    rw [checkGradesLoop_ok_iff h, passesCriteriaSpec]
    simp only [List.all_eq_true, Bool.or_eq_true, beq_iff_eq, Option.isSome_iff_exists] at hall
    constructor
    · rintro ⟨hmin, htot⟩
      refine ⟨?_, hmin, by simpa using htot⟩
      intro kv hkv hne
      rcases hall kv hkv with hkv' | hkv'
      · exact absurd hkv' hne
      · simpa [Option.isSome_iff_exists] using hkv'
    · rintro ⟨_, hmin, htot⟩
      exact ⟨hmin, by simpa using htot⟩
  · rw [areGradesPassingCriteria, if_neg hall] at h
    simp only [Except.ok.injEq] at h
    subst h
    simp only [Bool.false_eq_true, false_iff, passesCriteriaSpec]
    rintro ⟨hatt, _, _⟩
    refine hall ?_
    simp only [List.all_eq_true, Bool.or_eq_true, beq_iff_eq]
    intro kv hkv
    by_cases hne : kv.1 = "total"
    · exact Or.inl hne
    · exact Or.inr (hatt kv hkv hne)

/-- Every collected ID is one of the evaluated users. -/
theorem collectEligible_subset {req w : List (String × ℚ)} :
    ∀ {users : List (Nat × List (String × ℚ))} {es : List Nat},
      collectEligible req w users = .ok es → ∀ u ∈ es, u ∈ users.map Prod.fst := by
  intro users
  induction users with
  | nil =>
    intro es h
    simp [collectEligible] at h
    simp [← h]
  | cons p rest ih =>
    intro es h
    obtain ⟨userId, userGrades⟩ := p
    rcases hare : areGradesPassingCriteria userGrades req w with e | passing <;>
      rw [collectEligible, hare] at h
    · cases h
    rcases hrest : collectEligible req w rest with e | eligible <;> rw [hrest] at h
    · cases h
    simp only [Except.ok.injEq] at h
    subst h
    intro u hu
    by_cases hp : passing = true <;> simp [hp] at hu
    · rcases hu with hu | hu
      · simp [hu]
      · simpa using Or.inr (ih hrest u hu)
    · simpa using Or.inr (ih hrest u hu)

/-- When the collection succeeds, every user's criteria check returned a
verdict. -/
theorem collectEligible_verdict {req w : List (String × ℚ)} :
    ∀ {users : List (Nat × List (String × ℚ))} {es : List Nat},
      collectEligible req w users = .ok es →
      ∀ p ∈ users, ∃ b, areGradesPassingCriteria p.2 req w = .ok b := by
  intro users
  induction users with
  | nil =>
    intro es _ p hp
    simp at hp
  | cons q rest ih =>
    intro es h p hp
    obtain ⟨userId, userGrades⟩ := q
    rcases hare : areGradesPassingCriteria userGrades req w with e | passing <;>
      rw [collectEligible, hare] at h
    · cases h
    rcases hrest : collectEligible req w rest with e | eligible <;> rw [hrest] at h
    · cases h
    rcases List.mem_cons.mp hp with hp' | hp'
    · exact ⟨passing, by rw [hp']; exact hare⟩
    · exact ih hrest p hp'

/-- Membership in the collected list is exactly a `true` verdict, for stores
whose user IDs are distinct (Python dict keys). -/
theorem collectEligible_mem_iff {req w : List (String × ℚ)} :
    ∀ {users : List (Nat × List (String × ℚ))} {es : List Nat}
      {userId : Nat} {userGrades : List (String × ℚ)},
      collectEligible req w users = .ok es →
      (userId, userGrades) ∈ users →
      (users.map Prod.fst).Nodup →
      (userId ∈ es ↔ areGradesPassingCriteria userGrades req w = .ok true) := by
  intro users
  induction users with
  | nil =>
    intro es userId userGrades _ hmem
    simp at hmem
  | cons q rest ih =>
    intro es userId userGrades h hmem hnd
    obtain ⟨uId, uGrades⟩ := q
    rcases hare : areGradesPassingCriteria uGrades req w with e | passing <;>
      rw [collectEligible, hare] at h
    · cases h
    rcases hrest : collectEligible req w rest with e | eligible <;> rw [hrest] at h
    · cases h
    simp only [Except.ok.injEq] at h
    subst h
    simp only [List.map_cons, List.nodup_cons] at hnd
    rcases List.mem_cons.mp hmem with hmem' | hmem'
    · injection hmem' with h1 h2
      subst h1
      subst h2
      rw [hare]
      by_cases hp : passing = true
      · subst hp
        simp
      · rw [Bool.not_eq_true] at hp
        subst hp
        rw [if_neg (by simp)]
        constructor
        · intro hu
          exact absurd (collectEligible_subset hrest _ hu) hnd.1
        · intro hok
          simp at hok
    · have hne : userId ≠ uId := by
        intro heq
        exact hnd.1 (heq ▸ List.mem_map_of_mem Prod.fst hmem')
      have hiff := ih hrest hmem' hnd.2
      by_cases hp : passing = true
      · rw [if_pos hp, List.mem_cons, ← hiff]
        simp [hne]
      · rw [if_neg hp]
        exact hiff

/-- If any evaluated user's criteria check raises, the whole collection
raises. -/
theorem collectEligible_error {req w : List (String × ℚ)} :
    ∀ {users : List (Nat × List (String × ℚ))} {p : Nat × List (String × ℚ)},
      p ∈ users →
      (∃ e, areGradesPassingCriteria p.2 req w = .error e) →
      ∃ e, collectEligible req w users = .error e := by
  intro users
  induction users with
  | nil =>
    intro p hp
    simp at hp
  | cons q rest ih =>
    intro p hp herr
    obtain ⟨uId, uGrades⟩ := q
    rcases hare : areGradesPassingCriteria uGrades req w with e | passing
    · exact ⟨e, by rw [collectEligible, hare]⟩
    · rcases List.mem_cons.mp hp with hp' | hp'
      · rcases herr with ⟨e, he⟩
        rw [hp'] at he
        simp only at he
        rw [he] at hare
        cases hare
      · rcases ih hp' herr with ⟨e, he⟩
        exact ⟨e, by rw [collectEligible, hare, he]⟩

/-- The concrete scenario of the weighted-grade claim: policy weights
Homework 20% / Lab 10% / Exam 70%, required grades 40% homework, 90% exam,
80% total; user 1 has 90% everywhere, user 2 has 30% homework and 95% exam. -/
def exampleGradesInput : SubsectionGradesInput where
  requiredGrades := [("homework", 2/5), ("exam", 9/10), ("total", 4/5)]
  gradingPolicy := [("Homework", 1/5), ("Lab", 1/10), ("Exam", 7/10)]
  userGrades := [(1, [("homework", 90), ("lab", 90), ("exam", 90)]),
                 (2, [("homework", 30), ("exam", 95)])]

/-- C1. For every learner evaluated by a successful run of the
weighted-grade strategy, the learner is in the returned eligible set iff
the spec's conditions (a), (b), (c) hold of their grades with respect to
the normalised requirements and the policy's weight table; and in the
claim's concrete scenario exactly user 1 is eligible. -/
theorem retrieveSubsectionGrades_mem_iff
    (inp : SubsectionGradesInput) (es : List Nat) (userId : Nat)
    (userGrades : List (String × ℚ))
    (hok : retrieveSubsectionGrades inp = .ok es)
    (hmem : (userId, userGrades) ∈ inp.userGrades)
    (hnd : (inp.userGrades.map Prod.fst).Nodup) :
    (userId ∈ es ↔
      passesCriteriaSpec userGrades
        (dictOf (inp.requiredGrades.map (fun kv => (lowerStr kv.1, kv.2 * 100))))
        (dictOf (inp.gradingPolicy.map (fun kv => (lowerStr kv.1, kv.2))))) ∧
    retrieveSubsectionGrades exampleGradesInput = .ok [1] := by
  refine ⟨?_, ?_⟩
  · rw [retrieveSubsectionGrades] at hok
    rcases collectEligible_verdict hok _ hmem with ⟨b, hb⟩
    simp only at hb
    rw [collectEligible_mem_iff hok hmem hnd, hb]
    simp only [Except.ok.injEq]
    exact areGradesPassingCriteria_ok_iff hb
  · have l4 : lowerStr "Homework" = "homework" := by decide
    have l5 : lowerStr "Lab" = "lab" := by decide
    have l6 : lowerStr "Exam" = "exam" := by decide
    have l1 : lowerStr "homework" = "homework" := by decide
    have l2 : lowerStr "exam" = "exam" := by decide
    have l3 : lowerStr "total" = "total" := by decide
    simp only [retrieveSubsectionGrades, exampleGradesInput, dictOf, List.map, List.foldl,
      dictInsert, l1, l2, l3, l4, l5, l6]
    simp [collectEligible, areGradesPassingCriteria, checkGradesLoop, dictGet, dictGetD, List.all]
    norm_num

/-- The concrete scenario evaluates to exactly user 1. -/
theorem exampleGradesInput_ok : retrieveSubsectionGrades exampleGradesInput = .ok [1] := by
  have l4 : lowerStr "Homework" = "homework" := by decide
  have l5 : lowerStr "Lab" = "lab" := by decide
  have l6 : lowerStr "Exam" = "exam" := by decide
  have l1 : lowerStr "homework" = "homework" := by decide
  have l2 : lowerStr "exam" = "exam" := by decide
  have l3 : lowerStr "total" = "total" := by decide
  simp only [retrieveSubsectionGrades, exampleGradesInput, dictOf, List.map, List.foldl,
    dictInsert, l1, l2, l3, l4, l5, l6]
  simp [collectEligible, areGradesPassingCriteria, checkGradesLoop, dictGet, dictGetD, List.all]
  norm_num

/-- Witness for the weighted-grade membership theorem, at the claim's
concrete scenario and its passing learner. -/
theorem retrieveSubsectionGrades_mem_iff_witness :
    (1 ∈ [1] ↔
      passesCriteriaSpec [("homework", (90 : ℚ)), ("lab", 90), ("exam", 90)]
        (dictOf (exampleGradesInput.requiredGrades.map (fun kv => (lowerStr kv.1, kv.2 * 100))))
        (dictOf (exampleGradesInput.gradingPolicy.map (fun kv => (lowerStr kv.1, kv.2))))) ∧
    retrieveSubsectionGrades exampleGradesInput = .ok [1] :=
  retrieveSubsectionGrades_mem_iff exampleGradesInput [1] 1
    [("homework", 90), ("lab", 90), ("exam", 90)]
    exampleGradesInput_ok
    (by simp [exampleGradesInput])
    (by simp [exampleGradesInput])

/-- A batch in which the only learner has an unknown category but an
earlier-checked grade (homework, 30 < the required 40) already fails: the
evaluation returns normally. -/
def shortCircuitGradesInput : SubsectionGradesInput where
  requiredGrades := [("homework", 2/5)]
  gradingPolicy := [("Homework", 1)]
  userGrades := [(7, [("homework", 30), ("unknown", 90)])]

/-- C5 counterexample. A learner's grades contain the category `"unknown"`,
absent from the weight table, yet `retrieve_subsection_grades` raises
nothing: the grade check returns `False` at the failing homework grade
before reaching the weight lookup, and the evaluation returns an empty
eligible list. -/
theorem retrieveSubsectionGrades_unknown_no_error :
    retrieveSubsectionGrades shortCircuitGradesInput = .ok [] ∧
    (∀ e, retrieveSubsectionGrades shortCircuitGradesInput ≠ .error e) ∧
    (dictGet [("homework", (30 : ℚ)), ("unknown", 90)] "unknown").isSome = true ∧
    dictGet (dictOf (shortCircuitGradesInput.gradingPolicy.map
      (fun kv => (lowerStr kv.1, kv.2)))) "unknown" = none := by
  have hok : retrieveSubsectionGrades shortCircuitGradesInput = .ok [] := by
    have l4 : lowerStr "Homework" = "homework" := by decide
    have l1 : lowerStr "homework" = "homework" := by decide
    simp only [retrieveSubsectionGrades, shortCircuitGradesInput, dictOf, List.map, List.foldl,
      dictInsert, l1, l4]
    simp [collectEligible, areGradesPassingCriteria, checkGradesLoop, dictGet, dictGetD, List.all]
    norm_num
  refine ⟨hok, ?_, by decide, ?_⟩
  · intro e he
    rw [hok] at he
    cases he
  · have l4 : lowerStr "Homework" = "homework" := by decide
    simp [shortCircuitGradesInput, dictOf, dictInsert, dictGet, l4]

/-- C5 amended. If some learner's grades contain a category absent from the
weight table, *and* that learner passes the attempt check and every one of
their grades meets its required minimum (so that the loop reaches the weight
lookup), then the whole evaluation raises the `ValueError`. -/
theorem retrieveSubsectionGrades_unknown_category_error
    (inp : SubsectionGradesInput) (userId : Nat) (userGrades : List (String × ℚ))
    (hmem : (userId, userGrades) ∈ inp.userGrades)
    (hatt : ∀ kv ∈ dictOf (inp.requiredGrades.map (fun kv => (lowerStr kv.1, kv.2 * 100))),
      kv.1 ≠ "total" → (dictGet userGrades kv.1).isSome)
    (hmin : ∀ kv ∈ userGrades,
      dictGetD (dictOf (inp.requiredGrades.map (fun kv => (lowerStr kv.1, kv.2 * 100)))) kv.1 0
        ≤ kv.2)
    (hmiss : ∃ kv ∈ userGrades,
      dictGet (dictOf (inp.gradingPolicy.map (fun kv => (lowerStr kv.1, kv.2)))) kv.1 = none) :
    ∃ e, retrieveSubsectionGrades inp = .error e := by
  rw [retrieveSubsectionGrades]
  refine collectEligible_error hmem ?_
  rw [areGradesPassingCriteria]
  rw [if_pos ?_]
  · exact checkGradesLoop_error hmin hmiss
  · simp only [List.all_eq_true, Bool.or_eq_true, beq_iff_eq]
    intro kv hkv
    by_cases hne : kv.1 = "total"
    · exact Or.inl hne
    · exact Or.inr (hatt kv hkv hne)

/-- The batch from the repository's own test of the unknown-category error:
only a `"total"` requirement, weights for homework and lab, and a learner
with grades in homework and an unknown category. -/
def unknownCategoryGradesInput : SubsectionGradesInput where
  requiredGrades := [("Total", 7/4)]
  gradingPolicy := [("Homework", 1/2), ("Lab", 1/2)]
  userGrades := [(7, [("homework", 90), ("unknown", 90)])]

/-- Witness for the amended unknown-category theorem. -/
theorem retrieveSubsectionGrades_unknown_category_error_witness :
    ∃ e, retrieveSubsectionGrades unknownCategoryGradesInput = .error e := by
  have lt : lowerStr "Total" = "total" := by decide
  have l4 : lowerStr "Homework" = "homework" := by decide
  have l5 : lowerStr "Lab" = "lab" := by decide
  refine retrieveSubsectionGrades_unknown_category_error unknownCategoryGradesInput 7
    [("homework", 90), ("unknown", 90)] (by simp [unknownCategoryGradesInput]) ?_ ?_ ?_
  · simp [unknownCategoryGradesInput, dictOf, dictInsert, lt]
  · intro kv hkv
    rcases List.mem_cons.mp hkv with h | h
    · subst h
      simp [unknownCategoryGradesInput, dictOf, dictInsert, dictGetD, dictGet, lt]
    · simp only [List.mem_singleton] at h
      subst h
      simp [unknownCategoryGradesInput, dictOf, dictInsert, dictGetD, dictGet, lt]
  · refine ⟨("unknown", 90), by simp, ?_⟩
    simp [unknownCategoryGradesInput, dictOf, dictInsert, dictGet, l4, l5]

/-! ## Lemmas about the completion evaluator -/

/-- Shape of the pagination loop when page `page + k` is the first page
without a `next` marker: the loop visits pages `page, …, page + k` in order,
each requested with page size 1000, and concatenates the accepted usernames
page by page. -/
theorem completionPagesLoop_eq (req : ℚ) (fetch : Nat → CompletionPage) :
    ∀ (k page fuel : Nat), k < fuel →
      (∀ j, j < k → (fetch (page + j)).hasNext = true) →
      (fetch (page + k)).hasNext = false →
      completionPagesLoop req fetch fuel page =
        (((List.range (k + 1)).map (fun j => pageEligible req (fetch (page + j)))).flatten,
         (List.range (k + 1)).map (fun j => (1000, page + j))) := by
  intro k
  induction k with
  | zero =>
    intro page fuel hfu _ hlast
    obtain ⟨m, rfl⟩ : ∃ m, fuel = m + 1 := ⟨fuel - 1, by omega⟩
    rw [completionPagesLoop]
    simp only [Nat.add_zero] at hlast
    rw [if_neg (by simp [hlast])]
    simp [List.range_succ]
  | succ k ih =>
    intro page fuel hfu hnext hlast
    obtain ⟨m, rfl⟩ : ∃ m, fuel = m + 1 := ⟨fuel - 1, by omega⟩
    rw [completionPagesLoop]
    have hfirst : (fetch page).hasNext = true := by
      have := hnext 0 (by omega)
      simpa using this
    rw [if_pos (by simp [hfirst])]
    rw [ih (page + 1) m (by omega)
      (fun j hj => by
        have := hnext (j + 1) (by omega)
        rwa [show page + (j + 1) = page + 1 + j by omega] at this)
      (by rwa [show page + 1 + k = page + (k + 1) by omega])]
    have hmapeq : (List.range (k + 1)).map (fun j => pageEligible req (fetch (page + 1 + j)))
        = (List.range (k + 1)).map (fun j => pageEligible req (fetch (page + (j + 1)))) :=
      List.map_congr_left (fun j _ => by rw [show page + 1 + j = page + (j + 1) by omega])
    have hmapeq2 : (List.range (k + 1)).map (fun j => ((1000 : Nat), page + 1 + j))
        = (List.range (k + 1)).map (fun j => ((1000 : Nat), page + (j + 1))) :=
      List.map_congr_left (fun j _ => by rw [show page + 1 + j = page + (j + 1) by omega])
    rw [hmapeq, hmapeq2]
    conv_rhs => rw [List.range_succ_eq_map]
    simp only [List.map_cons, List.flatten_cons, List.map_map, Nat.add_zero, Prod.mk.injEq]
    constructor
    · congr 1
    · congr 1

/-- The two-page completion source of the claim's concrete scenario:
page 1 holds user1 at 0.9 with a next-page marker, page 2 holds user2 at 0.7
and user3 at 0.8 with no next marker. -/
def examplePagesFetch : Nat → CompletionPage := fun p =>
  if p = 1 then ⟨[("user1", 9/10)], true⟩
  else if p = 2 then ⟨[("user2", 7/10), ("user3", 4/5)], false⟩
  else ⟨[], false⟩

/-- The user table resolving the scenario's usernames to IDs. -/
def exampleUserTable : List (Nat × String) :=
  [(1, "user1"), (2, "user2"), (3, "user3")]

/-- C4. When page `1 + k` is the first page without a next marker (and the
fuel covers it), the completion strategy fetches exactly pages `1, …, 1 + k`
in order, each with page size 1000, accumulates per page the usernames whose
completion percent is at least `options.get('required_completion', 0.9)`,
and returns the IDs of the users with an accumulated username; in the
claim's two-page scenario with threshold 0.8 the result is `[1, 3]`
(user1 and user3, not user2) after exactly 2 page fetches. -/
theorem retrieveCourseCompletions_paged
    (requiredCompletionOpt : Option ℚ) (fetch : Nat → CompletionPage)
    (userTable : List (Nat × String)) (fuel k : Nat)
    (hfu : k < fuel)
    (hnext : ∀ j, j < k → (fetch (1 + j)).hasNext = true)
    (hlast : (fetch (1 + k)).hasNext = false) :
    (retrieveCourseCompletions requiredCompletionOpt fetch userTable fuel =
      (userTable.filter (fun u =>
        (((List.range (k + 1)).map (fun j =>
          pageEligible (requiredCompletionOpt.getD (9 / 10)) (fetch (1 + j)))).flatten).contains
            u.2)).map Prod.fst) ∧
    (completionPagesLoop (requiredCompletionOpt.getD (9 / 10)) fetch fuel 1).2 =
      (List.range (k + 1)).map (fun j => (1000, 1 + j)) ∧
    retrieveCourseCompletions (some (4 / 5)) examplePagesFetch exampleUserTable 5 = [1, 3] ∧
    (completionPagesLoop (4 / 5) examplePagesFetch 5 1).2 = [(1000, 1), (1000, 2)] := by
  have hloop := completionPagesLoop_eq (requiredCompletionOpt.getD (9 / 10)) fetch k 1 fuel
    hfu hnext hlast
  refine ⟨?_, ?_, ?_, ?_⟩
  · rw [retrieveCourseCompletions]
    rw [hloop]
  · rw [hloop]
  · rw [retrieveCourseCompletions]
    norm_num [completionPagesLoop, examplePagesFetch, pageEligible, exampleUserTable,
      List.contains, List.filter]
    simp
  · norm_num [completionPagesLoop, examplePagesFetch, pageEligible]

/-- Witness for the completion-pagination theorem, at the claim's two-page
scenario (threshold 0.8, final page 2, fuel 5). -/
theorem retrieveCourseCompletions_paged_witness :
    (retrieveCourseCompletions (some (4 / 5)) examplePagesFetch exampleUserTable 5 =
      (exampleUserTable.filter (fun u =>
        (((List.range 2).map (fun j =>
          pageEligible ((some ((4 : ℚ) / 5)).getD (9 / 10)) (examplePagesFetch (1 + j)))).flatten).contains
            u.2)).map Prod.fst) ∧
    (completionPagesLoop ((some ((4 : ℚ) / 5)).getD (9 / 10)) examplePagesFetch 5 1).2 =
      (List.range 2).map (fun j => (1000, 1 + j)) ∧
    retrieveCourseCompletions (some (4 / 5)) examplePagesFetch exampleUserTable 5 = [1, 3] ∧
    (completionPagesLoop (4 / 5) examplePagesFetch 5 1).2 = [(1000, 1), (1000, 2)] :=
  retrieveCourseCompletions_paged (some (4 / 5)) examplePagesFetch exampleUserTable 5 1
    (by omega)
    (fun j hj => by
      have : j = 0 := by omega
      subst this
      norm_num [examplePagesFetch])
    (by norm_num [examplePagesFetch])

/-! ## Lemmas about the credential ledger -/

/-- `find?` after replacing every element satisfying `p` by `c` (with
`p c = true`): the result is `c` whenever anything satisfied `p`. -/
theorem find?_map_replace {α : Type} {p : α → Bool} {c : α} (hc : p c = true) :
    ∀ l : List α, (l.map (fun x => if p x then c else x)).find? p = (l.find? p).map (fun _ => c)
  | [] => rfl
  | x :: l => by
    by_cases hx : p x = true
    · simp only [List.map_cons, if_pos hx]
      rw [List.find?_cons_of_pos _ hc, List.find?_cons_of_pos _ hx]
      rfl
    · simp only [List.map_cons, if_neg hx]
      rw [List.find?_cons_of_neg _ hx, List.find?_cons_of_neg _ hx]
      exact find?_map_replace hc l

/-- Every element of the replaced list that satisfies `p` is the
replacement. -/
theorem mem_map_replace {α : Type} {p : α → Bool} {c x : α} {l : List α}
    (hx : x ∈ l.map (fun y => if p y then c else y)) (hpx : p x = true) : x = c := by
  rcases List.mem_map.mp hx with ⟨y, _, hy⟩
  by_cases hpy : p y = true
  · rw [if_pos hpy] at hy
    exact hy.symm
  · rw [if_neg hpy] at hy
    rw [← hy] at hpx
    exact absurd hpx hpy

/-- The credential returned by the upsert carries the natural key. -/
theorem upsertGenerating_matches (cfg : CertConfig) (store : CertStore) (userId : Nat)
    (userFullName : String) (celeryTaskId : Nat) :
    matchesKey cfg userId (upsertGenerating cfg store userId userFullName celeryTaskId).2 = true := by
  rw [upsertGenerating]
  rcases hfind : findCert store cfg userId with _ | c
  · simp [matchesKey]
  · have hkey := List.find?_some hfind
    simpa [matchesKey] using hkey

/-- After the upsert, looking up the natural key finds exactly the returned
credential. -/
theorem upsertGenerating_find (cfg : CertConfig) (store : CertStore) (userId : Nat)
    (userFullName : String) (celeryTaskId : Nat) :
    findCert (upsertGenerating cfg store userId userFullName celeryTaskId).1 cfg userId =
      some (upsertGenerating cfg store userId userFullName celeryTaskId).2 := by
  rw [upsertGenerating]
  rcases hfind : findCert store cfg userId with _ | c
  · have hnone : store.certs.find? (matchesKey cfg userId) = none := hfind
    simp only [findCert]
    rw [List.find?_append, hnone]
    have hkey : matchesKey cfg userId
        { uuid := store.nextUuid, userId := userId, userFullName := userFullName,
          courseId := cfg.courseId, certificateType := cfg.certificateTypeName,
          status := CertStatus.generating, downloadUrl := "",
          generationTaskId := celeryTaskId } = true := by
      simp [matchesKey]
    simp [List.find?_cons_of_pos _ hkey]
  · have hkey := List.find?_some hfind
    have hkey' : matchesKey cfg userId
        { c with
          userFullName := userFullName
          status := CertStatus.generating
          generationTaskId := celeryTaskId } = true := by
      simpa [matchesKey] using hkey
    simp only [findCert, saveCert]
    rw [find?_map_replace hkey']
    simp only [findCert] at hfind
    rw [hfind]
    rfl

/-- C2. A failed generation attempt always persists the ERROR status on the
credential row before raising: the returned error carries the credential
UUID, the user ID and the configuration ID, the stored row for the natural
key exists with that UUID and ERROR status, and no row for the key is left
in GENERATING status. -/
theorem generateCertificateForUser_failure (cfg : CertConfig) (store : CertStore)
    (userId : Nat) (userFullName : String) (celeryTaskId : Nat) :
    ∃ u,
      (generateCertificateForUser cfg store userId userFullName none celeryTaskId).2 =
        .error ⟨u, userId, cfg.id⟩ ∧
      (∃ c, findCert (generateCertificateForUser cfg store userId userFullName none
          celeryTaskId).1 cfg userId = some c ∧ c.uuid = u ∧ c.status = CertStatus.error) ∧
      ∀ c ∈ (generateCertificateForUser cfg store userId userFullName none celeryTaskId).1.certs,
        matchesKey cfg userId c = true → c.status = CertStatus.error := by
  have hkey := upsertGenerating_matches cfg store userId userFullName celeryTaskId
  have hfind := upsertGenerating_find cfg store userId userFullName celeryTaskId
  rcases hup : upsertGenerating cfg store userId userFullName celeryTaskId with ⟨store1, cert⟩
  rw [hup] at hkey hfind
  simp only at hkey hfind
  have hkey' : matchesKey cfg userId { cert with status := CertStatus.error } = true := by
    simpa [matchesKey] using hkey
  refine ⟨cert.uuid, ?_, ⟨{ cert with status := CertStatus.error }, ?_, rfl, rfl⟩, ?_⟩
  · rw [generateCertificateForUser, hup]
  · rw [generateCertificateForUser, hup]
    simp only [findCert, saveCert]
    rw [find?_map_replace hkey']
    simp only [findCert] at hfind
    rw [hfind]
    rfl
  · rw [generateCertificateForUser, hup]
    intro c hc hck
    have := mem_map_replace hc hck
    rw [this]

/-- The upsert's in-place update branch, explicitly. -/
theorem upsertGenerating_of_found (cfg : CertConfig) (store : CertStore) (userId : Nat)
    (userFullName : String) (celeryTaskId : Nat) (r : ExternalCertificate)
    (hfind : findCert store cfg userId = some r) :
    upsertGenerating cfg store userId userFullName celeryTaskId =
      (saveCert store cfg userId
        { r with
          userFullName := userFullName
          status := CertStatus.generating
          generationTaskId := celeryTaskId },
       { r with
         userFullName := userFullName
         status := CertStatus.generating
         generationTaskId := celeryTaskId }) := by
  rw [upsertGenerating, hfind]

/-- C10. The exception handler of a failed attempt only changes the status:
when a row existed for the natural key, the row stored after the failure is
the pre-attempt row with the freshly computed full name and task ID written
by the upsert and status ERROR — its `uuid` and `download_url` (for example
one recorded by an earlier successful generation) are untouched. -/
theorem generateCertificateForUser_failure_frame (cfg : CertConfig) (store : CertStore)
    (userId : Nat) (userFullName : String) (celeryTaskId : Nat) (r : ExternalCertificate)
    (hfind : findCert store cfg userId = some r) :
    findCert (generateCertificateForUser cfg store userId userFullName none celeryTaskId).1
      cfg userId =
      some { r with
        userFullName := userFullName
        generationTaskId := celeryTaskId
        status := CertStatus.error } := by
  have hkey := List.find?_some hfind
  have hkey1 : matchesKey cfg userId
      { r with
        userFullName := userFullName
        status := CertStatus.generating
        generationTaskId := celeryTaskId } = true := by
    simpa [matchesKey] using hkey
  have hkey2 : matchesKey cfg userId
      { r with
        userFullName := userFullName
        generationTaskId := celeryTaskId
        status := CertStatus.error } = true := by
    simpa [matchesKey] using hkey
  rw [generateCertificateForUser,
    upsertGenerating_of_found cfg store userId userFullName celeryTaskId r hfind]
  simp only [findCert, saveCert]
  rw [find?_map_replace hkey2, find?_map_replace hkey1]
  simp only [findCert] at hfind
  rw [hfind]
  rfl

/-- The pre-attempt row of the frame witness: an AVAILABLE credential with a
download URL from an earlier successful generation. -/
def exampleIssuedCert : ExternalCertificate where
  uuid := 42
  userId := 5
  userFullName := "Old Name"
  courseId := "course-v1:Org+C1+2024"
  certificateType := "completion"
  status := CertStatus.available
  downloadUrl := "https://cdn.example.com/42.pdf"
  generationTaskId := 0

/-- Witness for the frame theorem: after a failed regeneration attempt the
stored row keeps uuid 42 and the old download URL, with status ERROR. -/
theorem generateCertificateForUser_failure_frame_witness :
    findCert (generateCertificateForUser ⟨9, "course-v1:Org+C1+2024", "completion"⟩
        ⟨[exampleIssuedCert], 100⟩ 5 "New Name" none 7).1
      ⟨9, "course-v1:Org+C1+2024", "completion"⟩ 5 =
      some { exampleIssuedCert with
        userFullName := "New Name"
        generationTaskId := 7
        status := CertStatus.error } :=
  generateCertificateForUser_failure_frame ⟨9, "course-v1:Org+C1+2024", "completion"⟩
    ⟨[exampleIssuedCert], 100⟩ 5 "New Name" 7 exampleIssuedCert (by decide)

/-- Membership is invariant under the keep-first deduplication. -/
theorem mem_dedupList (a : Nat) : ∀ l : List Nat, a ∈ dedupList l ↔ a ∈ l
  | [] => Iff.rfl
  | x :: xs => by
    rw [dedupList]
    by_cases hax : a = x
    · subst hax
      simp
    · simp only [List.mem_cons, List.mem_filter, mem_dedupList a xs]
      simp [hax]

/-- C3. An ID is kept by `filter_out_user_ids_with_certificates` iff it was
a candidate and every certificate it holds for this (course, type) is in
ERROR status: an existing AVAILABLE, INVALIDATED or GENERATING certificate
removes it, while an ERROR-only certificate does not. -/
theorem filterOutUserIdsWithCertificates_mem_iff (cfg : CertConfig) (store : CertStore)
    (userIds : List Nat) (userId : Nat) :
    userId ∈ filterOutUserIdsWithCertificates cfg store userIds ↔
      userId ∈ userIds ∧
      ∀ c ∈ store.certs, c.courseId = cfg.courseId →
        c.certificateType = cfg.certificateTypeName → c.userId = userId →
        c.status = CertStatus.error := by
  rw [filterOutUserIdsWithCertificates]
  simp only [List.mem_filter, mem_dedupList, Bool.not_eq_true']
  rw [and_congr_right_iff]
  intro _
  rw [← Bool.not_eq_true, List.elem_iff]
  simp only [List.mem_map, List.mem_filter, Bool.and_eq_true, beq_iff_eq,
    Bool.not_eq_true', beq_eq_false_iff_ne, ne_eq]
  constructor
  · intro h c hc h1 h2 h3
    by_contra hs
    exact h ⟨c, ⟨hc, ⟨h1, h2⟩, hs⟩, h3⟩
  · rintro h ⟨c, ⟨hc, ⟨h1, h2⟩, hs⟩, h3⟩
    exact hs (h c hc h1 h2 h3)

/-- C6. The manual-generation command raises the not-eligible error exactly
when `force` is false and the learner is outside the eligible set, in which
case the certificate store is untouched; otherwise it dispatches the
generation task for (configuration, learner). (The store is passed through
unchanged in every case: dispatching only enqueues the asynchronous task.) -/
theorem apiGenerateCertificateForUser_eligibility (cfg : CertConfig) (eligible : List Nat)
    (store : CertStore) (userId : Nat) (force : Bool) :
    ((apiGenerateCertificateForUser cfg eligible store userId force).2 =
        .error "User is not eligible for the certificate." ↔
      force = false ∧ userId ∉ eligible) ∧
    (apiGenerateCertificateForUser cfg eligible store userId force).1 = store ∧
    ((apiGenerateCertificateForUser cfg eligible store userId force).2 =
        .ok ⟨cfg.id, userId⟩ ↔
      force = true ∨ userId ∈ eligible) := by
  have hempty : (getEligibleUserIds eligible (some userId)).isEmpty = true ↔
      userId ∉ eligible := by
    rw [getEligibleUserIds, List.isEmpty_iff, List.filter_eq_nil_iff]
    constructor
    · intro h hmem
      exact absurd (by simp : (userId == userId) = true) (h userId hmem)
    · intro h a ha
      simp only [beq_iff_eq, Bool.not_eq_true, decide_eq_false_iff_not]
      intro heq
      exact h (heq ▸ ha)
  rw [apiGenerateCertificateForUser]
  by_cases hf : force
  · subst hf
    simp
  · rw [Bool.not_eq_true] at hf
    subst hf
    by_cases hm : userId ∈ eligible
    · rw [if_neg (by simp [hempty, hm])]
      simp [hm]
    · rw [if_pos (by simp [hempty, hm])]
      simp [hm]

/-! ## Lemmas about the renderer's pure logic -/

/-- C7 counterexample. For a learning path, a non-empty
`options['resource_name']` override is ignored: the subject name is the
`LearningPath` lookup result, not the override. -/
theorem resolveResourceName_override_ignored :
    resolveResourceName "learning_path" (some "Override")
      ⟨"Course Title", true, some "Learning Path Title"⟩ = .ok "Learning Path Title" ∧
    "Learning Path Title" ≠ "Override" := by
  constructor
  · rfl
  · decide

/-- C7 amended. The subject name honours a non-empty
`options['resource_name']` override for resource type `'course'` only
(empty or absent falls back to the course title); for `'learning_path'` the
name is always the lookup result — the empty string, never an exception,
when the app is missing or the lookup fails — with the override ignored;
any other resource type is a hard `ValueError`. -/
theorem resolveResourceName_cases :
    (∀ (env : RenderEnv) (n : String), n ≠ "" →
      resolveResourceName "course" (some n) env = .ok n) ∧
    (∀ env : RenderEnv, resolveResourceName "course" (some "") env = .ok env.courseName) ∧
    (∀ env : RenderEnv, resolveResourceName "course" none env = .ok env.courseName) ∧
    (∀ (env : RenderEnv) (nameOpt : Option String),
      resolveResourceName "learning_path" nameOpt env =
        .ok ((if env.learningPathsInstalled then env.learningPathLookup else none).getD "")) ∧
    (∀ (resourceType : String) (nameOpt : Option String) (env : RenderEnv),
      resourceType ≠ "course" → resourceType ≠ "learning_path" →
      resolveResourceName resourceType nameOpt env =
        .error ("Unsupported resource type: " ++ resourceType)) := by
  refine ⟨?_, ?_, ?_, ?_, ?_⟩
  · intro env n hn
    simp [resolveResourceName, hn]
  · intro env
    simp [resolveResourceName]
  · intro env
    simp [resolveResourceName]
  · intro env nameOpt
    unfold resolveResourceName
    rw [if_neg (by decide), if_pos rfl]
    rcases h : (if env.learningPathsInstalled then env.learningPathLookup else none) with _ | n
      <;> simp
  · intro resourceType nameOpt env h1 h2
    unfold resolveResourceName
    rw [if_neg h1, if_neg h2]

/-- Witness for the subject-name resolution theorem. -/
theorem resolveResourceName_cases_witness :
    resolveResourceName "course" (some "Override") ⟨"Course Title", false, none⟩ =
      .ok "Override" ∧
    resolveResourceName "learning_path" (some "Override") ⟨"Course Title", false, some "LP"⟩ =
      .ok ((if false then some "LP" else none).getD "") ∧
    resolveResourceName "video" none ⟨"Course Title", false, none⟩ =
      .error ("Unsupported resource type: " ++ "video") :=
  ⟨resolveResourceName_cases.1 ⟨"Course Title", false, none⟩ "Override" (by decide),
   resolveResourceName_cases.2.2.2.1 ⟨"Course Title", false, some "LP"⟩ (some "Override"),
   resolveResourceName_cases.2.2.2.2 "video" none ⟨"Course Title", false, none⟩
     (by decide) (by decide)⟩

/-- C8. The two-line template is selected — with every semicolon of the
subject name turned into a newline — exactly when the subject name contains
a semicolon and `template_two_lines` is truthy; in every other case the
template is `options['template']` (whose absence is a hard error) and the
subject name, semicolons included, is untouched. `"A;B"` then renders as
the lines `"A"` and `"B"` in the first case and as the single line
`"A;B"` otherwise. -/
theorem selectTemplate_spec :
    (∀ (name : String) (t two : Option String),
      (containsSemicolon name && truthyOpt two) = true →
      selectTemplate name t two = .ok (two.getD "", replaceSemicolons name)) ∧
    (∀ (name t : String) (two : Option String),
      (containsSemicolon name && truthyOpt two) = false →
      selectTemplate name (some t) two = .ok (t, name)) ∧
    (∀ (name : String) (two : Option String),
      (containsSemicolon name && truthyOpt two) = false →
      selectTemplate name none two = .error "KeyError: 'template'") ∧
    replaceSemicolons "A;B" = "A\nB" ∧
    renderedLines "A\nB" = ["A", "B"] ∧
    renderedLines "A;B" = ["A;B"] := by
  refine ⟨?_, ?_, ?_, by decide, by decide, by decide⟩
  · intro name t two h
    unfold selectTemplate
    rw [if_pos h]
  · intro name t two h
    unfold selectTemplate
    rw [if_neg (by simp [h])]
  · intro name two h
    unfold selectTemplate
    rw [if_neg (by simp [h])]

/-- Witness for the template-selection theorem, at the claim's subject name
`"A;B"`. -/
theorem selectTemplate_spec_witness :
    selectTemplate "A;B" (some "single") (some "two") =
      .ok ((some "two").getD "", replaceSemicolons "A;B") ∧
    selectTemplate "A;B" (some "single") none = .ok ("single", "A;B") :=
  ⟨selectTemplate_spec.1 "A;B" (some "single") (some "two") (by decide),
   selectTemplate_spec.2.1 "A;B" "single" none (by decide)⟩

/-- A hexadecimal digit is not `'#'`. -/
theorem hexDigitValue_ne_hash {a : Char} {v : Nat} (h : hexDigitValue a = some v) :
    (a == '#') = false := by
  by_contra hne
  rw [Bool.not_eq_false, beq_iff_eq] at hne
  subst hne
  rw [show hexDigitValue '#' = none from rfl] at h
  cases h

/-- C9. `hex_to_rgb` parses every 3-digit hex color (with or without a
leading `'#'`) as the color obtained by doubling each digit — digit value
`v` becomes the byte `17 * v` — and every 6-digit hex color (with or
without a leading `'#'`) as the triple of its byte values divided by 255. -/
theorem hexToRgb_spec :
    (∀ (a b c : Char) (va vb vc : Nat),
      hexDigitValue a = some va → hexDigitValue b = some vb → hexDigitValue c = some vc →
      hexToRgb (String.mk [a, b, c]) =
          some (((17 * va : Nat) : ℚ) / 255, ((17 * vb : Nat) : ℚ) / 255,
            ((17 * vc : Nat) : ℚ) / 255) ∧
        hexToRgb (String.mk ['#', a, b, c]) = hexToRgb (String.mk [a, b, c]) ∧
        hexToRgb (String.mk [a, b, c]) = hexToRgb (String.mk [a, a, b, b, c, c])) ∧
    (∀ (c1 c2 c3 c4 c5 c6 : Char) (v1 v2 v3 v4 v5 v6 : Nat),
      hexDigitValue c1 = some v1 → hexDigitValue c2 = some v2 → hexDigitValue c3 = some v3 →
      hexDigitValue c4 = some v4 → hexDigitValue c5 = some v5 → hexDigitValue c6 = some v6 →
      hexToRgb (String.mk [c1, c2, c3, c4, c5, c6]) =
          some (((16 * v1 + v2 : Nat) : ℚ) / 255, ((16 * v3 + v4 : Nat) : ℚ) / 255,
            ((16 * v5 + v6 : Nat) : ℚ) / 255) ∧
        hexToRgb (String.mk ['#', c1, c2, c3, c4, c5, c6]) =
          hexToRgb (String.mk [c1, c2, c3, c4, c5, c6])) := by
  constructor
  · intro a b c va vb vc ha hb hc
    have hna := hexDigitValue_ne_hash ha
    refine ⟨?_, ?_, ?_⟩
    · show hexToRgb (String.mk [a, b, c]) = _
      simp only [hexToRgb, String.toList, List.dropWhile_cons, hna, Bool.false_eq_true,
        if_false, List.dropWhile_nil, List.length_cons, List.length_nil, if_pos rfl,
        List.map_cons, List.map_nil, List.flatten_cons, List.flatten_nil,
        List.cons_append, List.nil_append, List.drop_succ_cons, List.drop_zero,
        List.take_succ_cons, List.take_zero, parseHexNat, parseHexDigits, ha, hb, hc]
      norm_num
      refine ⟨?_, ?_, ?_⟩ <;> ring
    · show hexToRgb (String.mk ['#', a, b, c]) = hexToRgb (String.mk [a, b, c])
      simp only [hexToRgb, String.toList, List.dropWhile_cons, hna, Bool.false_eq_true,
        if_false, if_pos rfl, beq_self_eq_true, if_true, List.dropWhile_nil]
    · show hexToRgb (String.mk [a, b, c]) = hexToRgb (String.mk [a, a, b, b, c, c])
      have hnb := hexDigitValue_ne_hash hb
      simp only [hexToRgb, String.toList, List.dropWhile_cons, hna, hnb, Bool.false_eq_true,
        if_false, List.length_cons, List.length_nil, List.map_cons, List.map_nil,
        List.flatten_cons, List.flatten_nil, List.cons_append, List.nil_append]
      norm_num
  · intro c1 c2 c3 c4 c5 c6 v1 v2 v3 v4 v5 v6 h1 h2 h3 h4 h5 h6
    have hn1 := hexDigitValue_ne_hash h1
    constructor
    · show hexToRgb (String.mk [c1, c2, c3, c4, c5, c6]) = _
      simp only [hexToRgb, String.toList, List.dropWhile_cons, hn1, Bool.false_eq_true,
        if_false, List.length_cons, List.length_nil,
        List.drop_succ_cons, List.drop_zero, List.take_succ_cons, List.take_zero,
        parseHexNat, parseHexDigits, h1, h2, h3, h4, h5, h6]
      norm_num
    · show hexToRgb (String.mk ['#', c1, c2, c3, c4, c5, c6]) =
        hexToRgb (String.mk [c1, c2, c3, c4, c5, c6])
      simp only [hexToRgb, String.toList, List.dropWhile_cons, hn1, Bool.false_eq_true,
        if_false, beq_self_eq_true, if_true]

/-- Witness for the hex-color theorem: `"123"` (with or without `'#'`)
normalises to `(0x11/255, 0x22/255, 0x33/255)` and agrees with its
doubled form `"112233"`. -/
theorem hexToRgb_spec_witness :
    hexToRgb "123" = some ((17 : ℚ) / 255, (34 : ℚ) / 255, (51 : ℚ) / 255) ∧
    hexToRgb "#123" = hexToRgb "123" ∧
    hexToRgb "123" = hexToRgb "112233" := by
  have h := hexToRgb_spec.1 '1' '2' '3' 1 2 3 (by decide) (by decide) (by decide)
  refine ⟨?_, h.2.1, h.2.2⟩
  have h1 := h.1
  norm_num at h1 ⊢
  exact h1
